import Mathlib

/-
Verification development for the bam Hiwonder servo stack
(src/bam/hiwonder/hiwonder.py, hiwonder_board_controller.py,
hiwonder_board_adapter.py, hiwonder_board_hwi.py).

Conventions of the shallow embedding:
- serial byte streams are `List Nat` (each element one received byte);
- Python floats are modelled as exact rationals (`ℚ`) except where the code
  uses `np.pi`, which is modelled by the exact real `Real.pi` (so those
  definitions live in `ℝ`);
- Python `int(x)` truncation toward zero is `pyInt`;
- a function that can return `None` returns an `Option`; the board decoder,
  whose logging lines can raise `TypeError`, returns a three-valued outcome
  type distinguishing a returned frame, a returned `None`, and a raised
  exception.
-/

/-- Python `int(x)`: truncation toward zero (floor for nonnegative arguments,
ceiling for negative ones). -/
def pyInt {α : Type} [LinearOrderedField α] [FloorRing α] (x : α) : ℤ :=
  if 0 ≤ x then ⌊x⌋ else ⌈x⌉

/-- `np.clip(a, lo, hi)` on integers: `np.minimum(hi, np.maximum(a, lo))`. -/
def npClip (a lo hi : ℤ) : ℤ :=
  min hi (max a lo)

namespace HiwonderServo
/- Embedding of `HiwonderServo` (src/bam/hiwonder/hiwonder.py): the direct
single-servo protocol client. -/

/-- `HiwonderServo._calculate_checksum`: `(~sum(data)) & 0xFF`.  In Python,
`~s = -s - 1` and `& 0xFF` of a negative number is a nonnegative mod 256. -/
def calculate_checksum (data : List Nat) : Nat :=
  ((-(data.sum : Int) - 1) % 256).toNat

/-- Header scan of `HiwonderServo._read_response` (lines 119-127): the loop
reads two bytes at a time and keeps going until it reads `0x55 0x55`; a
mismatched pair is discarded whole.  Fewer than two remaining bytes model the
100 ms timeout expiring, which returns `None`. -/
def scan_header : List Nat → Option (List Nat)
  | a :: b :: rest => if a = 0x55 ∧ b = 0x55 then some rest else scan_header rest
  | _ => none

/-- `HiwonderServo._read_response(expected_length)`: after the header is
found, read `expected_length - 2` bytes; short data returns `None`, otherwise
header plus data is returned.  No checksum is recomputed or compared
anywhere. -/
def read_response (expected_length : Nat) (input : List Nat) : Option (List Nat) :=
  match scan_header input with
  | none => none
  | some rest =>
    let data := rest.take (expected_length - 2)
    if data.length < expected_length - 2 then none
    else some ([0x55, 0x55] ++ data)

/-- Unit conversion inside `HiwonderServo.set_goal_position` (lines 160-161):
`position_units = int(500 + (position / (2 * np.pi)) * 1000)` followed by
`np.clip(position_units, 0, 1000)`. -/
noncomputable def set_goal_position_units (position : ℝ) : ℤ :=
  npClip (pyInt (500 + position / (2 * Real.pi) * 1000)) 0 1000

/-- Unit conversion inside `HiwonderServo.read_position` (line 190):
`position = ((position_units - 500) / 1000.0) * (2 * np.pi)`. -/
noncomputable def read_position_radians (position_units : ℤ) : ℝ :=
  ((position_units : ℝ) - 500) / 1000 * (2 * Real.pi)

end HiwonderServo

namespace HiwonderBoardController
/- Embedding of `HiwonderBoardController`
(src/bam/hiwonder/hiwonder_board_controller.py). -/

def CMD_SERVO_MOVE : Nat := 0x03

def CMD_GET_BATTERY_VOLTAGE : Nat := 0x0F

def CMD_MULT_SERVO_UNLOAD : Nat := 0x14

def CMD_MULT_SERVO_POS_READ : Nat := 0x15

/-- `HiwonderBoardController._send_command`: the byte sequence written to the
serial port.  `length = 2 + len(params)`; the packet is
`HEADER + [length, command] + params` and nothing else — in particular no
checksum byte is appended (lines 84-95). -/
def send_command (command : Nat) (params : List Nat) : List Nat :=
  [0x55, 0x55] ++ [2 + params.length, command] ++ params

/-- Outcome of `HiwonderBoardController._read_response`.  `frame` is a
returned `[length, command, param...]` list, `noneResult` a returned `None`,
and `raisedTypeError` the `TypeError` raised by the log lines
`f"... ({h:02X}) ..."` / `f"... {header:02X}"` (lines 120 and 127), which
apply a numeric format spec to a `bytes` object. -/
inductive ReadResponseResult where
  | frame (bytes : List Nat)
  | noneResult
  | raisedTypeError
deriving DecidableEq

/-- `HiwonderBoardController._read_response` on an input byte stream (the
bytes the serial port will deliver before timing out).  Control flow of
lines 112-147: an empty stream times out waiting for the header (`None`); a
first byte other than `0x55` reaches the resynchronization log line, which
raises `TypeError`; likewise a missing or wrong second header byte raises at
the second log line; a short `length`/`command` read returns `None`; a
declared length below 2 makes `remaining` negative, so the comparison with
the empty read fails and `None` is returned; short parameter data returns
`None`; otherwise `[length, command] + data` is returned. -/
def read_response : List Nat → ReadResponseResult
  | [] => .noneResult
  | h :: rest =>
    if h = 0x55 then
      match rest with
      | [] => .raisedTypeError
      | h2 :: rest2 =>
        if h2 = 0x55 then
          match rest2 with
          | length :: command :: rest3 =>
            if length < 2 then .noneResult
            else if rest3.length < length - 2 then .noneResult
            else .frame ([length, command] ++ rest3.take (length - 2))
          | _ => .noneResult
        else .raisedTypeError
    else .raisedTypeError

/-- Parameter list built by `HiwonderBoardController.move_servos`
(lines 173-181): start from `[len(servo_commands)]` and append, per command,
`servo_id`, `position & 0xFF`, `(position >> 8) & 0xFF`, `time_ms & 0xFF`,
`(time_ms >> 8) & 0xFF`. -/
def move_servos_params (servo_commands : List (Nat × Nat × Nat)) : List Nat :=
  servo_commands.foldl
    (fun params c =>
      params ++ [c.1, c.2.1 % 256, c.2.1 / 256 % 256, c.2.2 % 256, c.2.2 / 256 % 256])
    [servo_commands.length]

/-- The frame `move_servos` writes to the transport. -/
def move_servos_tx (servo_commands : List (Nat × Nat × Nat)) : List Nat :=
  send_command CMD_SERVO_MOVE (move_servos_params servo_commands)

/-- The frame `unload_servos` writes: params are `[len(servo_ids)] + servo_ids`
(line 227). -/
def unload_servos_tx (servo_ids : List Nat) : List Nat :=
  send_command CMD_MULT_SERVO_UNLOAD (servo_ids.length :: servo_ids)

/-- The query frame `read_servo_positions` writes: params are
`[len(servo_ids)] + servo_ids` (line 250). -/
def read_servo_positions_tx (servo_ids : List Nat) : List Nat :=
  send_command CMD_MULT_SERVO_POS_READ (servo_ids.length :: servo_ids)

/-- The query frame `get_battery_voltage` writes (line 201): no params. -/
def get_battery_voltage_tx : List Nat :=
  send_command CMD_GET_BATTERY_VOLTAGE []

end HiwonderBoardController

namespace SpeedEstimation
/- Embedding of the speed-estimating telemetry readers
`HiwonderServoWithSpeedEstimation.read_data` (src/bam/hiwonder/hiwonder.py,
lines 266-294) and `HiwonderBoardServoWithSpeedEstimation.read_data`
(src/bam/hiwonder/hiwonder_board_adapter.py, lines 165-192); the two bodies
implement the identical estimator. -/

/-- The mutable state `(self.last_position, self.last_time)`. -/
structure EstState where
  last_position : Option ℚ
  last_time : Option ℚ
deriving DecidableEq

/-- State set by `__init__`: both `None`. -/
def initState : EstState := ⟨none, none⟩

/-- One `read_data` call, as a function of the current state, the sampled
`time.time()` value and the position just read.  Returns the reported speed
together with the updated state: `speed = 0.0` unless both prior samples
exist and `dt = current_time - last_time > 0`, in which case
`speed = (position - last_position) / dt`; the state fields are then
overwritten unconditionally. -/
def read_data (st : EstState) (current_time position : ℚ) : ℚ × EstState :=
  let speed : ℚ :=
    match st.last_position, st.last_time with
    | some last_position, some last_time =>
      if current_time - last_time > 0 then (position - last_position) / (current_time - last_time)
      else 0
    | _, _ => 0
  (speed, ⟨some position, some current_time⟩)

end SpeedEstimation

namespace HiwonderBoardController

/-- Outcome of `HiwonderBoardController.get_battery_voltage`: a voltage in
volts, a returned `None`, or the `TypeError` propagated from
`_read_response`. -/
inductive BatteryResult where
  | voltage (v : ℚ)
  | noneResult
  | raisedTypeError
deriving DecidableEq

/-- `HiwonderBoardController.get_battery_voltage` receive side
(lines 202-209) as a function of the serial input stream: requires the
decoded frame to be non-empty with `response[1] == CMD_GET_BATTERY_VOLTAGE`
and `response[0] == 4`, then returns
`(response[2] | (response[3] << 8)) / 1000.0` volts; anything else returns
`None`. -/
def get_battery_voltage (input : List Nat) : BatteryResult :=
  match read_response input with
  | .raisedTypeError => .raisedTypeError
  | .noneResult => .noneResult
  | .frame response =>
    if response ≠ [] ∧ response.getD 1 0 = CMD_GET_BATTERY_VOLTAGE ∧ response.getD 0 0 = 4 then
      .voltage ((Nat.lor (response.getD 2 0) (Nat.shiftLeft (response.getD 3 0) 8) : ℚ) / 1000)
    else .noneResult

/-- Outcome of `HiwonderBoardController.read_servo_positions`. -/
inductive PositionsResult where
  | positions (ps : List (Nat × Nat))
  | noneResult
  | raisedTypeError
deriving DecidableEq

/-- The parse loop of `read_servo_positions` (lines 256-267): for
`i in range(count)` with `count = response[2]`, take the triple at
`offset = 3 + i * 3` only when `offset + 2 < len(response)`, so a triple
that is not fully present is skipped and no index ever exceeds the buffer
(the `getD` defaults are only ever read under that guard). -/
def parse_positions (response : List Nat) : List (Nat × Nat) :=
  (List.range (response.getD 2 0)).filterMap (fun i =>
    if 3 + i * 3 + 2 < response.length then
      some (response.getD (3 + i * 3) 0,
        Nat.lor (response.getD (3 + i * 3 + 1) 0)
          (Nat.shiftLeft (response.getD (3 + i * 3 + 2) 0) 8))
    else none)

/-- `HiwonderBoardController.read_servo_positions` receive side
(lines 252-270) as a function of the serial input stream. -/
def read_servo_positions (input : List Nat) : PositionsResult :=
  match read_response input with
  | .raisedTypeError => .raisedTypeError
  | .noneResult => .noneResult
  | .frame response =>
    if response ≠ [] ∧ 3 ≤ response.length then .positions (parse_positions response)
    else .noneResult

/-- The three wire bytes `[id, pos_low, pos_high]` of one fully transmitted
servo-position triple (used to state properties of `read_servo_positions`). -/
def triple_bytes (t : Nat × Nat × Nat) : List Nat :=
  [t.1, t.2.1, t.2.2]

end HiwonderBoardController

namespace HWI
/- Embedding of `HWI` (src/bam/hiwonder/hiwonder_board_hwi.py), the
joint-space hardware interface over the board controller. -/

/-- The joint table `self.joints` (lines 41-56), in declaration (insertion)
order. -/
def joints : List (String × Nat) :=
  [("left_hip_yaw", 100), ("left_hip_roll", 101), ("left_hip_pitch", 102),
   ("left_knee", 103), ("left_ankle", 104),
   ("neck_pitch", 110), ("head_pitch", 111), ("head_yaw", 112), ("head_roll", 113),
   ("right_hip_yaw", 105), ("right_hip_roll", 106), ("right_hip_pitch", 107),
   ("right_knee", 108), ("right_ankle", 109)]

/-- `self.default_move_duration_ms = 20` (line 93). -/
def default_move_duration_ms : Nat := 20

/-- `HWI._radians_to_servo_units` (lines 97-115):
`units = 500 + radians * 1000.0 / 4.18879` then
`int(max(0, min(1000, units)))`. -/
def radians_to_servo_units (radians : ℚ) : ℤ :=
  pyInt (max 0 (min 1000 (500 + radians * 1000 / 4.18879)))

/-- `HWI._servo_units_to_radians` (lines 117-129):
`radians = (units - 500) * 4.18879 / 1000.0`. -/
def servo_units_to_radians (units : ℤ) : ℚ :=
  ((units : ℚ) - 500) * 4.18879 / 1000

/-- Round-half-to-even at integer resolution, the rounding mode of
`np.around`. -/
def round_half_even (x : ℚ) : ℤ :=
  if x - ⌊x⌋ = 1 / 2 then (if Even ⌊x⌋ then ⌊x⌋ else ⌊x⌋ + 1) else round x

/-- `np.around(x, 3)`: round half to even at three decimals. -/
def round3 (x : ℚ) : ℚ :=
  (round_half_even (x * 1000) : ℚ) / 1000

/-- The dict comprehension
`id_to_position = {servo_id: pos for servo_id, pos in positions_data}` of
`get_present_positions` (line 267): later entries overwrite earlier ones. -/
def dict_get (positions_data : List (Nat × Nat)) : Nat → Option Nat :=
  positions_data.foldl (fun m p => fun k => if k = p.1 then some p.2 else m k) (fun _ => none)

/-- The batch of `(servo_id, servo_units, duration)` commands built by
`HWI.set_position_all` (lines 216-232): iterate the caller's mapping in
order, skip (with a warning, no exception) any name missing from
`self.joints`, otherwise append
`(self.joints[name], radians_to_servo_units(position + offset), duration)`.
The duration argument models `move_duration_ms`, whose `None` default is
replaced by `default_move_duration_ms` (lines 213-214).  The offsets
function models `self.joints_offsets` loaded from the duck configuration. -/
def set_position_all_commands (offsets : String → ℚ) (joints_positions : List (String × ℚ))
    (move_duration_ms : Option Nat) : List (Nat × Nat × Nat) :=
  let dur := move_duration_ms.getD default_move_duration_ms
  joints_positions.foldl
    (fun servo_commands p =>
      match joints.lookup p.1 with
      | none => servo_commands
      | some servo_id =>
        servo_commands ++ [(servo_id, (radians_to_servo_units (p.2 + offsets p.1)).toNat, dur)])
    []

/-- `HWI.get_present_positions` (lines 251-289) as a function of the board
response `positions_data` (the result of `read_servo_positions`, `none`
when that read failed): walk `self.joints` in declaration order, skip
ignored names, convert a found servo position to radians and subtract the
joint offset, default to `0.0` (with a warning) when a servo id is missing
from the response, and finally apply `np.around(·, 3)` elementwise. -/
def get_present_positions (offsets : String → ℚ) (ignore : List String)
    (positions_data : Option (List (Nat × Nat))) : Option (List ℚ) :=
  match positions_data with
  | none => none
  | some pd =>
    some ((joints.foldl
      (fun present_positions j =>
        if j.1 ∈ ignore then present_positions
        else
          match dict_get pd j.2 with
          | some servo_units =>
            present_positions ++ [servo_units_to_radians servo_units - offsets j.1]
          | none => present_positions ++ [(0 : ℚ)])
      []).map round3)

end HWI

namespace HiwonderBoardServo
/- Embedding of `HiwonderBoardServo`
(src/bam/hiwonder/hiwonder_board_adapter.py). -/

/-- The list of frames `HiwonderBoardServo.set_torque_enable` writes to the
transport (lines 54-64): nothing when `enable` is true (torque re-engages
implicitly on the next move command), and exactly one
`unload_servos([servo_id])` frame when `enable` is false. -/
def set_torque_enable_writes (servo_id : Nat) (enable : Bool) : List (List Nat) :=
  if enable = false then [HiwonderBoardController.unload_servos_tx [servo_id]]
  else []

end HiwonderBoardServo

/- Helper lemmas (shared). -/

/-- A left fold that appends a chunk per element equals the initial
accumulator followed by the flattened chunks. -/
lemma foldl_append_eq_bind {α β : Type} (f : α → List β) :
    ∀ (l : List α) (init : List β),
      l.foldl (fun acc a => acc ++ f a) init = init ++ l.flatMap f
  | [], init => by simp
  | a :: l, init => by
    simp only [List.foldl_cons, List.flatMap_cons]
    rw [foldl_append_eq_bind f l (init ++ f a), List.append_assoc]

/-- The parameter list of `move_servos` is the count byte followed by the
five encoded bytes of each command, in input order. -/
lemma move_servos_params_eq (cmds : List (Nat × Nat × Nat)) :
    HiwonderBoardController.move_servos_params cmds
      = cmds.length :: cmds.flatMap (fun c =>
          [c.1, c.2.1 % 256, c.2.1 / 256 % 256, c.2.2 % 256, c.2.2 / 256 % 256]) := by
  unfold HiwonderBoardController.move_servos_params
  rw [foldl_append_eq_bind (fun c =>
    [c.1, c.2.1 % 256, c.2.1 / 256 % 256, c.2.2 % 256, c.2.2 / 256 % 256]) cmds
    [cmds.length]]
  rfl

/-- Five bytes are emitted per command. -/
lemma move_servos_enc_bind_length (cmds : List (Nat × Nat × Nat)) :
    (cmds.flatMap (fun c =>
      [c.1, c.2.1 % 256, c.2.1 / 256 % 256, c.2.2 % 256, c.2.2 / 256 % 256])).length
        = 5 * cmds.length := by
  induction cmds with
  | nil => rfl
  | cons c l ih =>
    rw [List.flatMap_cons, List.length_append, ih, List.length_cons]
    simp only [List.length_cons, List.length_nil]
    omega

/-- Total parameter length of a `move_servos` batch. -/
lemma move_servos_params_length (cmds : List (Nat × Nat × Nat)) :
    (HiwonderBoardController.move_servos_params cmds).length = 1 + 5 * cmds.length := by
  rw [move_servos_params_eq, List.length_cons, move_servos_enc_bind_length]
  omega

/-- A well-formed board response stream — header, length byte, command byte
and exactly `length - 2` further bytes — decodes to
`[length, command] + data`, whatever the data bytes are.  No checksum is
recomputed or compared. -/
lemma board_read_response_wellformed (length command : Nat) (payload : List Nat)
    (h2 : 2 ≤ length) (hlen : payload.length = length - 2) :
    HiwonderBoardController.read_response (0x55 :: 0x55 :: length :: command :: payload)
      = .frame ([length, command] ++ payload) := by
  have hnot : ¬ length < 2 := by omega
  have hnot2 : ¬ payload.length < length - 2 := by omega
  simp [HiwonderBoardController.read_response, hnot, hnot2, ← hlen, List.take_length]

/- Claim theorems. -/

/-- C1 counterexample: the battery-voltage query frame actually written to
the transport is `[0x55, 0x55, 0x02, 0x0F]` and is not followed by the
checksum byte `(~(0x02 + 0x0F)) & 0xFF` the claim describes —
`_send_command` never appends a checksum. -/
theorem battery_query_frame_has_no_checksum_byte :
    HiwonderBoardController.get_battery_voltage_tx ≠
      [0x55, 0x55, 0x02, 0x0F, HiwonderServo.calculate_checksum [0x02, 0x0F]] := by
  decide

/-- C1 (amended): for every board-mode command the frame written to the
transport is exactly `[0x55][0x55][Length][Command][Param...]` with
`Length = 2 + number of parameter bytes` and no checksum byte appended; the
frame ends with the last parameter byte. -/
theorem board_frames_have_no_checksum (cmds : List (Nat × Nat × Nat)) (ids : List Nat) :
    HiwonderBoardController.move_servos_tx cmds
        = [0x55, 0x55, 3 + 5 * cmds.length, 0x03, cmds.length]
          ++ cmds.flatMap (fun c =>
              [c.1, c.2.1 % 256, c.2.1 / 256 % 256, c.2.2 % 256, c.2.2 / 256 % 256]) ∧
    HiwonderBoardController.unload_servos_tx ids
        = [0x55, 0x55, 3 + ids.length, 0x14, ids.length] ++ ids ∧
    HiwonderBoardController.read_servo_positions_tx ids
        = [0x55, 0x55, 3 + ids.length, 0x15, ids.length] ++ ids ∧
    HiwonderBoardController.get_battery_voltage_tx = [0x55, 0x55, 0x02, 0x0F] := by
  refine ⟨?_, ?_, ?_, rfl⟩
  · have hlen := move_servos_params_length cmds
    unfold HiwonderBoardController.move_servos_tx HiwonderBoardController.send_command
      HiwonderBoardController.CMD_SERVO_MOVE
    rw [hlen, move_servos_params_eq,
      show 2 + (1 + 5 * cmds.length) = 3 + 5 * cmds.length from by omega]
    simp
  · unfold HiwonderBoardController.unload_servos_tx HiwonderBoardController.send_command
      HiwonderBoardController.CMD_MULT_SERVO_UNLOAD
    rw [List.length_cons, show 2 + (ids.length + 1) = 3 + ids.length from by omega]
    simp
  · unfold HiwonderBoardController.read_servo_positions_tx
      HiwonderBoardController.send_command HiwonderBoardController.CMD_MULT_SERVO_POS_READ
    rw [List.length_cons, show 2 + (ids.length + 1) = 3 + ids.length from by omega]
    simp

/-- C2 counterexample: the response frame `[0x55,0x55,0x04,0x0F,0xB8,0x1B]`
(the board's own battery-response format) decodes successfully, and so does
the frame obtained from it by corrupting the single payload byte
`0xB8 → 0xB9`: the decoder accepts the corrupted frame instead of reporting
any checksum mismatch. -/
theorem corrupted_payload_accepted_concrete :
    HiwonderBoardController.read_response [0x55, 0x55, 4, 0x0F, 0xB8, 0x1B]
        = .frame [4, 0x0F, 0xB8, 0x1B] ∧
    HiwonderBoardController.read_response [0x55, 0x55, 4, 0x0F, 0xB9, 0x1B]
        = .frame [4, 0x0F, 0xB9, 0x1B] := by
  decide

/-- C2 (amended): neither `_read_response` validates any checksum.  A
response whose two header bytes and declared length survive is accepted as
a successful decode whatever its payload bytes hold — in particular after
corrupting any payload byte — and the corrupted bytes are handed to the
caller. -/
theorem decoders_accept_corrupted_payload :
    (∀ (length command : Nat) (payload : List Nat), 2 ≤ length →
      payload.length = length - 2 →
      HiwonderBoardController.read_response (0x55 :: 0x55 :: length :: command :: payload)
        = .frame ([length, command] ++ payload)) ∧
    (∀ (expected_length : Nat) (payload tl : List Nat),
      payload.length = expected_length - 2 →
      HiwonderServo.read_response expected_length (0x55 :: 0x55 :: (payload ++ tl))
        = some ([0x55, 0x55] ++ payload)) := by
  constructor
  · exact fun l c p h2 hl => board_read_response_wellformed l c p h2 hl
  · intro e payload tl hlen
    have hscan : HiwonderServo.scan_header (0x55 :: 0x55 :: (payload ++ tl))
        = some (payload ++ tl) := by
      simp [HiwonderServo.scan_header]
    simp only [HiwonderServo.read_response, hscan]
    rw [← hlen, List.take_left]
    simp

/-- C2 witness: concrete instances of both acceptance statements. -/
theorem decoders_accept_corrupted_payload_witness :
    HiwonderBoardController.read_response [0x55, 0x55, 5, 0x15, 9, 9, 9]
        = .frame [5, 0x15, 9, 9, 9] ∧
    HiwonderServo.read_response 8 [0x55, 0x55, 1, 8, 28, 7, 7, 7]
        = some [0x55, 0x55, 1, 8, 28, 7, 7, 7] :=
  ⟨decoders_accept_corrupted_payload.1 5 0x15 [9, 9, 9] (by decide) (by decide),
    decoders_accept_corrupted_payload.2 8 [1, 8, 28, 7, 7, 7] [] (by decide)⟩

/-- C4: the speed-estimating `read_data`: a first read after initialization
reports speed 0; with a prior sample `(p0, t0)` and a new sample `(p1, t1)`
it reports `(p1 - p0) / (t1 - t0)` exactly when `t1 - t0 > 0` and 0 when
`t1 - t0 ≤ 0` (no division happens then); and the stored state becomes the
new sample after every read, unconditionally. -/
theorem speed_estimation_read_data_behaviour :
    (∀ t p : ℚ, SpeedEstimation.read_data SpeedEstimation.initState t p
        = (0, ⟨some p, some t⟩)) ∧
    (∀ p0 t0 p1 t1 : ℚ, t1 - t0 > 0 →
      (SpeedEstimation.read_data ⟨some p0, some t0⟩ t1 p1).1 = (p1 - p0) / (t1 - t0)) ∧
    (∀ p0 t0 p1 t1 : ℚ, t1 - t0 ≤ 0 →
      (SpeedEstimation.read_data ⟨some p0, some t0⟩ t1 p1).1 = 0) ∧
    (∀ (st : SpeedEstimation.EstState) (t p : ℚ),
      (SpeedEstimation.read_data st t p).2 = ⟨some p, some t⟩) := by
  refine ⟨fun t p => rfl, fun p0 t0 p1 t1 h => ?_, fun p0 t0 p1 t1 h => ?_,
    fun st t p => rfl⟩
  · simp [SpeedEstimation.read_data, h]
  · simp [SpeedEstimation.read_data, not_lt.mpr h]

/-- C4 witness: prior sample `(0, 0)`, new sample `(2, 1)` with `dt = 1`
reports speed `(2 - 0) / (1 - 0) = 2`. -/
theorem speed_estimation_read_data_behaviour_witness :
    (SpeedEstimation.read_data ⟨some 0, some 0⟩ 1 2).1 = (2 - 0) / (1 - 0) :=
  speed_estimation_read_data_behaviour.2.1 0 0 2 1 (by norm_num)

/-- C5: the `move_servos` parameter encoding is a count byte equal to the
batch size followed, in input order, by exactly the five bytes
`id, pos & 0xFF, (pos >> 8) & 0xFF, time & 0xFF, (time >> 8) & 0xFF` per
command. -/
theorem move_servos_encoding_layout (cmds : List (Nat × Nat × Nat)) :
    HiwonderBoardController.move_servos_params cmds
        = cmds.length :: cmds.flatMap (fun c =>
            [c.1, c.2.1 % 256, c.2.1 / 256 % 256, c.2.2 % 256, c.2.2 / 256 % 256]) ∧
    (HiwonderBoardController.move_servos_params cmds).length = 1 + 5 * cmds.length :=
  ⟨move_servos_params_eq cmds, move_servos_params_length cmds⟩

/-- C6: concrete evaluations of `get_battery_voltage`.  A stray byte before
the header makes the decoder raise `TypeError` (the failure the claim says
must yield `None`); an empty stream (timeout), a wrong command byte, a
length field other than 4, and a declared length disagreeing with the
actual payload size all return `None`; the well-formed response with
payload `[0xB8, 0x1B]` returns `0x1BB8 / 1000 = 7.096` volts. -/
theorem get_battery_voltage_parse_behaviour :
    HiwonderBoardController.get_battery_voltage [0x00, 0x55, 0x55, 4, 0x0F, 0xB8, 0x1B]
        = .raisedTypeError ∧
    HiwonderBoardController.get_battery_voltage [] = .noneResult ∧
    HiwonderBoardController.get_battery_voltage [0x55, 0x55, 4, 0x10, 0xB8, 0x1B]
        = .noneResult ∧
    HiwonderBoardController.get_battery_voltage [0x55, 0x55, 5, 0x0F, 0xB8, 0x1B, 0]
        = .noneResult ∧
    HiwonderBoardController.get_battery_voltage [0x55, 0x55, 6, 0x0F, 0xB8, 0x1B]
        = .noneResult ∧
    HiwonderBoardController.get_battery_voltage [0x55, 0x55, 4, 0x0F, 0xB8, 0x1B]
        = .voltage (7096 / 1000) :=
  ⟨rfl, rfl, rfl, rfl, rfl, rfl⟩

/-- C10: on the board-adapter servo, `set_torque_enable(True)` writes
nothing at all to the transport, while `set_torque_enable(False)` writes
exactly the one unload frame for the one-element id list `[servo_id]`. -/
theorem set_torque_enable_board_adapter_io (servo_id : Nat) :
    HiwonderBoardServo.set_torque_enable_writes servo_id true = [] ∧
    HiwonderBoardServo.set_torque_enable_writes servo_id false
        = [[0x55, 0x55, 4, 0x14, 1, servo_id]] :=
  ⟨rfl, rfl⟩

/-- Quantization property of the affine unit maps: starting from
`x = 500 + r * 1000 / span` with `|r| ≤ span / 2`, `x` stays inside
`[0, 1000]`, and mapping `⌊x⌋` back through `(units - 500) * span / 1000`
lands within one device unit (`span / 1000`) of `r`. -/
lemma floor_affine_roundtrip {α : Type} [LinearOrderedField α] [FloorRing α]
    (span r : α) (hspan : 0 < span) (hr : |r| ≤ span / 2) :
    0 ≤ 500 + r * 1000 / span ∧ 500 + r * 1000 / span ≤ 1000 ∧
    |((⌊500 + r * 1000 / span⌋ : α) - 500) * span / 1000 - r| ≤ span / 1000 := by
  have hspan0 : span ≠ 0 := ne_of_gt hspan
  have hub : r * 1000 / span ≤ 500 := by
    rw [div_le_iff hspan]
    linarith [le_abs_self r]
  have hlb : (-500 : α) ≤ r * 1000 / span := by
    rw [le_div_iff hspan]
    linarith [neg_abs_le r]
  have hx0 : (0 : α) ≤ 500 + r * 1000 / span := by linarith
  have hx1 : 500 + r * 1000 / span ≤ 1000 := by linarith
  refine ⟨hx0, hx1, ?_⟩
  have hfl : ((⌊500 + r * 1000 / span⌋ : α)) ≤ 500 + r * 1000 / span := Int.floor_le _
  have hfl2 : 500 + r * 1000 / span - 1 < (⌊500 + r * 1000 / span⌋ : α) :=
    Int.sub_one_lt_floor _
  have key : ((⌊500 + r * 1000 / span⌋ : α) - 500) * span / 1000 - r
      = ((⌊500 + r * 1000 / span⌋ : α) - (500 + r * 1000 / span)) * span / 1000 := by
    field_simp
    ring
  rw [key, abs_div, abs_mul, abs_of_pos hspan,
    abs_of_pos (show (0 : α) < 1000 by norm_num)]
  rw [div_le_div_right (show (0 : α) < 1000 by norm_num)]
  have habs : |(⌊500 + r * 1000 / span⌋ : α) - (500 + r * 1000 / span)| ≤ 1 :=
    abs_le.mpr ⟨by linarith, by linarith⟩
  nlinarith [habs, hspan,
    abs_nonneg ((⌊500 + r * 1000 / span⌋ : α) - (500 + r * 1000 / span))]

/-- C3: converting radians to device units and back within one component
loses at most one device-unit quantization step: for the single-servo
client (span `2π`, range `±π`) the error is at most `2π / 1000`, and for
the joint-space HWI (span `4.18879`, range `±4.18879 / 2`) at most
`4.18879 / 1000`. -/
theorem unit_conversion_roundtrip_quantization (r : ℝ) (s : ℚ)
    (hr : |r| ≤ Real.pi) (hs : |s| ≤ 4.18879 / 2) :
    |HiwonderServo.read_position_radians (HiwonderServo.set_goal_position_units r) - r|
        ≤ 2 * Real.pi / 1000 ∧
    |HWI.servo_units_to_radians (HWI.radians_to_servo_units s) - s| ≤ 4.18879 / 1000 := by
  constructor
  · have hpi : (0 : ℝ) < 2 * Real.pi := by positivity
    have hr2 : |r| ≤ 2 * Real.pi / 2 := by
      rw [show 2 * Real.pi / 2 = Real.pi from by ring]
      exact hr
    obtain ⟨hx0, hx1, hkey⟩ := floor_affine_roundtrip (2 * Real.pi) r hpi hr2
    unfold HiwonderServo.set_goal_position_units HiwonderServo.read_position_radians
      pyInt npClip
    rw [show 500 + r / (2 * Real.pi) * 1000 = 500 + r * 1000 / (2 * Real.pi) from by ring,
      if_pos hx0]
    have hf0 : (0 : ℤ) ≤ ⌊500 + r * 1000 / (2 * Real.pi)⌋ := by
      rw [Int.le_floor]
      exact_mod_cast hx0
    have hf1 : ⌊500 + r * 1000 / (2 * Real.pi)⌋ ≤ 1000 := by
      have h := Int.floor_mono hx1
      rwa [show ⌊(1000 : ℝ)⌋ = 1000 from by norm_num] at h
    rw [max_eq_left hf0, min_eq_right hf1]
    rw [show ((⌊500 + r * 1000 / (2 * Real.pi)⌋ : ℝ) - 500) / 1000 * (2 * Real.pi)
        = ((⌊500 + r * 1000 / (2 * Real.pi)⌋ : ℝ) - 500) * (2 * Real.pi) / 1000 from by ring]
    exact hkey
  · obtain ⟨hx0, hx1, hkey⟩ :=
      floor_affine_roundtrip (4.18879 : ℚ) s (by norm_num) hs
    unfold HWI.radians_to_servo_units HWI.servo_units_to_radians pyInt
    rw [min_eq_right hx1, max_eq_right hx0, if_pos hx0]
    exact hkey

/-- C3 witness: the round trip at radian input 0 for both components. -/
theorem unit_conversion_roundtrip_quantization_witness :
    |HiwonderServo.read_position_radians (HiwonderServo.set_goal_position_units 0) - 0|
        ≤ 2 * Real.pi / 1000 ∧
    |HWI.servo_units_to_radians (HWI.radians_to_servo_units 0) - 0| ≤ (4.18879 : ℚ) / 1000 :=
  unit_conversion_roundtrip_quantization 0 0 (by simpa using Real.pi_nonneg) (by norm_num)

/-- Dropping a three-byte prefix shifts `getD` indices by three. -/
lemma getD_cons_three (a b c : Nat) (s : List Nat) (n : Nat) :
    (a :: b :: c :: s).getD (3 + n) 0 = s.getD n 0 := by
  rw [show 3 + n = n + 1 + 1 + 1 from by omega]
  simp [List.getD_cons_succ]

/-- The triple-reading loop of `read_servo_positions` expressed over the
byte suffix that follows the `[length, command, count]` prefix of the
decoded response. -/
def parse_from (s : List Nat) (count : Nat) : List (Nat × Nat) :=
  (List.range count).filterMap (fun i =>
    if i * 3 + 2 < s.length then
      some (s.getD (i * 3) 0,
        Nat.lor (s.getD (i * 3 + 1) 0) (Nat.shiftLeft (s.getD (i * 3 + 2) 0) 8))
    else none)

/-- `parse_positions` on a decoded response `length :: command :: count :: s`
reads its triples from the suffix `s`. -/
lemma parse_positions_cons (l c k : Nat) (s : List Nat) :
    HiwonderBoardController.parse_positions (l :: c :: k :: s) = parse_from s k := by
  unfold HiwonderBoardController.parse_positions parse_from
  rw [show (l :: c :: k :: s).getD 2 0 = k from rfl]
  refine List.filterMap_congr ?_
  intro i hi
  rw [show 3 + i * 3 + 2 = 3 + (i * 3 + 2) from by omega,
    show 3 + i * 3 + 1 = 3 + (i * 3 + 1) from by omega]
  simp only [getD_cons_three]
  exact if_congr (by simp only [List.length_cons]; omega) rfl rfl

/-- Peeling one full triple off the front of the suffix. -/
lemma parse_from_succ (a b c : Nat) (s : List Nat) (n : Nat) :
    parse_from (a :: b :: c :: s) (n + 1)
      = (a, Nat.lor b (Nat.shiftLeft c 8)) :: parse_from s n := by
  unfold parse_from
  rw [List.range_succ_eq_map, List.filterMap_cons]
  have hc : (0 : Nat) * 3 + 2 < (a :: b :: c :: s).length := by
    simp only [List.length_cons]
    omega
  simp only [hc, if_true, List.filterMap_map]
  congr 1
  refine List.filterMap_congr ?_
  intro i hi
  simp only [Function.comp_apply]
  rw [show Nat.succ i * 3 + 2 = 3 + (i * 3 + 2) from by omega,
    show Nat.succ i * 3 + 1 = 3 + (i * 3 + 1) from by omega,
    show Nat.succ i * 3 = 3 + i * 3 from by omega]
  simp only [getD_cons_three]
  exact if_congr (by simp only [List.length_cons]; omega) rfl rfl

/-- A suffix holding `full.length` complete triples plus at most two
leftover bytes, declared as `full.length + 1` triples, parses to exactly
the complete triples. -/
lemma parse_from_full (part : List Nat) (hpart : part.length < 3) :
    ∀ full : List (Nat × Nat × Nat),
      parse_from (full.flatMap HiwonderBoardController.triple_bytes ++ part)
          (full.length + 1)
        = full.map (fun t => (t.1, Nat.lor t.2.1 (Nat.shiftLeft t.2.2 8)))
  | [] => by
    show parse_from part 1 = []
    unfold parse_from
    rw [show List.range 1 = [0] from by simp [List.range_succ]]
    have h : ¬ ((0 : Nat) * 3 + 2 < part.length) := by omega
    simp [h]
  | t :: rest => by
    show parse_from (t.1 :: t.2.1 :: t.2.2 ::
        (rest.flatMap HiwonderBoardController.triple_bytes ++ part)) (rest.length + 1 + 1)
      = (t.1, Nat.lor t.2.1 (Nat.shiftLeft t.2.2 8)) ::
          rest.map (fun t => (t.1, Nat.lor t.2.1 (Nat.shiftLeft t.2.2 8)))
    rw [parse_from_succ, parse_from_full part hpart rest]

/-- When the decoder hands back a frame, `read_servo_positions` keeps the
parse of that frame (or `None` when the frame is shorter than three
bytes). -/
lemma read_servo_positions_frame (input R : List Nat)
    (h : HiwonderBoardController.read_response input = .frame R) :
    HiwonderBoardController.read_servo_positions input
      = if R ≠ [] ∧ 3 ≤ R.length
        then .positions (HiwonderBoardController.parse_positions R)
        else .noneResult := by
  unfold HiwonderBoardController.read_servo_positions
  rw [h]

/-- C7: a `read_servo_positions` response declaring `full.length + 1`
triples whose payload is truncated mid-triple (at most two bytes of the
last triple arrive, matching the declared frame length) yields exactly the
fully-present leading triples; the truncated trailing triple is dropped,
and the guard `offset + 2 < len(response)` keeps every index inside the
buffer. -/
theorem read_servo_positions_truncated_triple (c : Nat) (full : List (Nat × Nat × Nat))
    (part : List Nat) (hpart : part.length < 3) :
    HiwonderBoardController.read_servo_positions
        (0x55 :: 0x55 ::
          ((full.flatMap HiwonderBoardController.triple_bytes ++ part).length + 3)
          :: c :: ((full.length + 1)
            :: (full.flatMap HiwonderBoardController.triple_bytes ++ part)))
      = .positions (full.map (fun t => (t.1, Nat.lor t.2.1 (Nat.shiftLeft t.2.2 8)))) := by
  have hdec := board_read_response_wellformed
    ((full.flatMap HiwonderBoardController.triple_bytes ++ part).length + 3) c
    ((full.length + 1) :: (full.flatMap HiwonderBoardController.triple_bytes ++ part))
    (by omega) (by simp only [List.length_cons]; omega)
  rw [read_servo_positions_frame _ _ hdec]
  have hcond : ([((full.flatMap HiwonderBoardController.triple_bytes ++ part).length + 3), c]
      ++ (full.length + 1) :: (full.flatMap HiwonderBoardController.triple_bytes ++ part))
        ≠ [] ∧
      3 ≤ ([((full.flatMap HiwonderBoardController.triple_bytes ++ part).length + 3), c]
      ++ (full.length + 1)
        :: (full.flatMap HiwonderBoardController.triple_bytes ++ part)).length := by
    constructor
    · simp
    · simp only [List.cons_append, List.nil_append, List.length_cons]
      omega
  rw [if_pos hcond]
  rw [show ([((full.flatMap HiwonderBoardController.triple_bytes ++ part).length + 3), c]
      ++ (full.length + 1) :: (full.flatMap HiwonderBoardController.triple_bytes ++ part))
    = ((full.flatMap HiwonderBoardController.triple_bytes ++ part).length + 3)
      :: c :: (full.length + 1)
      :: (full.flatMap HiwonderBoardController.triple_bytes ++ part) from rfl]
  rw [parse_positions_cons, parse_from_full part hpart full]

/-- C7 witness: a response declaring two triples but carrying one full
triple `(1, 0xF4, 0x01)` and a single leftover byte yields exactly
`[(1, 500)]`. -/
theorem read_servo_positions_truncated_triple_witness :
    HiwonderBoardController.read_servo_positions [0x55, 0x55, 7, 0x15, 2, 1, 244, 1, 2]
      = .positions [(1, 500)] :=
  read_servo_positions_truncated_triple 0x15 [(1, 244, 1)] [2] (by decide)

/-- A fold whose step appends one element exactly when `g` fires equals a
`filterMap` over `g`. -/
lemma foldl_step_filterMap {α β : Type} (step : List β → α → List β) (g : α → Option β)
    (hstep : ∀ acc a, step acc a = match g a with | none => acc | some b => acc ++ [b]) :
    ∀ (l : List α) (init : List β), l.foldl step init = init ++ l.filterMap g
  | [], init => by simp
  | a :: l, init => by
    simp only [List.foldl_cons, hstep init a]
    cases h : g a with
    | none =>
      rw [foldl_step_filterMap step g hstep l]
      simp [List.filterMap_cons, h]
    | some b =>
      rw [foldl_step_filterMap step g hstep l]
      simp [List.filterMap_cons, h]

/-- A `filterMap` that skips exactly where a predicate holds is a filter
followed by a map. -/
lemma filterMap_ite_none {α β : Type} (p : α → Prop) [DecidablePred p] (g : α → β) :
    ∀ l : List α,
      l.filterMap (fun a => if p a then none else some (g a))
        = (l.filter (fun a => !decide (p a))).map g
  | [] => rfl
  | a :: l => by
    by_cases h : p a
    · simp [List.filterMap_cons, List.filter_cons, h, filterMap_ite_none p g l]
    · simp [List.filterMap_cons, List.filter_cons, h, filterMap_ite_none p g l]

/-- C8: the batch built by `set_position_all` holds exactly one command per
joint name known to `self.joints`, in the caller's order, with unknown
names skipped (a warning, never an exception); concretely, one unknown name
among five yields exactly the four valid commands, in order. -/
theorem set_position_all_skips_unknown_joints :
    (∀ (offsets : String → ℚ) (joints_positions : List (String × ℚ)) (dur : Option Nat),
      HWI.set_position_all_commands offsets joints_positions dur
        = joints_positions.filterMap (fun p => (HWI.joints.lookup p.1).map
            (fun servo_id => (servo_id,
              (HWI.radians_to_servo_units (p.2 + offsets p.1)).toNat,
              dur.getD HWI.default_move_duration_ms)))) ∧
    (∀ (offsets : String → ℚ) (r1 r2 r3 r4 r5 : ℚ),
      (HWI.set_position_all_commands offsets
          [("left_knee", r1), ("left_ankle", r2), ("unknown_joint", r3),
            ("head_yaw", r4), ("neck_pitch", r5)] (some 20)).map (fun cmd => cmd.1)
        = [103, 104, 112, 110]) := by
  have hmain : ∀ (offsets : String → ℚ) (jp : List (String × ℚ)) (dur : Option Nat),
      HWI.set_position_all_commands offsets jp dur
        = jp.filterMap (fun p => (HWI.joints.lookup p.1).map
            (fun servo_id => (servo_id,
              (HWI.radians_to_servo_units (p.2 + offsets p.1)).toNat,
              dur.getD HWI.default_move_duration_ms))) := by
    intro offsets jp dur
    simp only [HWI.set_position_all_commands]
    refine (foldl_step_filterMap _ _ ?_ jp []).trans (List.nil_append _)
    intro acc p
    cases h : HWI.joints.lookup p.1 <;> simp [h]
  refine ⟨hmain, fun offsets r1 r2 r3 r4 r5 => ?_⟩
  rw [hmain]
  simp [HWI.joints, List.lookup]

/-- C9: for every ignore list and board response, `get_present_positions`
returns an array aligned to the joint declaration order: one entry per
non-ignored joint, a joint's entry computed from its servo's reported units
when present and defaulting to `0.0` (after rounding, still `0`) when its
servo is missing from the response; the array length equals the number of
non-ignored joints. -/
theorem get_present_positions_alignment (offsets : String → ℚ) (ignore : List String)
    (pd : List (Nat × Nat)) :
    HWI.get_present_positions offsets ignore (some pd)
        = some ((HWI.joints.filter (fun j => !decide (j.1 ∈ ignore))).map (fun j =>
            HWI.round3 (match HWI.dict_get pd j.2 with
              | some servo_units => HWI.servo_units_to_radians servo_units - offsets j.1
              | none => 0))) ∧
    ((HWI.get_present_positions offsets ignore (some pd)).getD []).length
        = (HWI.joints.filter (fun j => !decide (j.1 ∈ ignore))).length ∧
    HWI.round3 0 = 0 := by
  have h1 : HWI.get_present_positions offsets ignore (some pd)
      = some ((HWI.joints.filter (fun j => !decide (j.1 ∈ ignore))).map (fun j =>
          HWI.round3 (match HWI.dict_get pd j.2 with
            | some servo_units => HWI.servo_units_to_radians servo_units - offsets j.1
            | none => 0))) := by
    simp only [HWI.get_present_positions]
    congr 1
    refine Eq.trans (congrArg (List.map HWI.round3)
      ((foldl_step_filterMap _ (fun j : String × Nat =>
          if j.1 ∈ ignore then none
          else some (match HWI.dict_get pd j.2 with
            | some servo_units => HWI.servo_units_to_radians servo_units - offsets j.1
            | none => (0 : ℚ))) ?_ HWI.joints []).trans (List.nil_append _))) ?_
    · intro acc j
      by_cases hm : j.1 ∈ ignore
      · simp [hm]
      · cases hd : HWI.dict_get pd j.2 <;> simp [hm, hd]
    · rw [filterMap_ite_none, List.map_map]
      rfl
  refine ⟨h1, ?_, ?_⟩
  · rw [h1]
    simp
  · norm_num [HWI.round3, HWI.round_half_even]
